import Mathlib

/-!
Verification of the cross-thread animation/error bridge in
`core/jni/android_view_ThreadedRenderer.cpp`.

Shallow embedding: render nodes, animators and listeners are identified by
natural numbers (they are pointers in the source); the owner thread's looper
is a FIFO queue of posted `MessageHandler`s; executing a handler on the owner
thread produces an explicit `OwnerEffect` (the listener invocations it
performs, or the exception it throws), so "invokes each listener once, in
order" becomes an equation on that trace.
-/

namespace ThreadedRenderer

/-- Identity of a `RenderNode*` (a pointer in the source). -/
abbrev NodeId := Nat

/-- Identity of a `BaseRenderNodeAnimator*`. -/
abbrev AnimatorId := Nat

/-- Identity of an `AnimationListener*`. -/
abbrev ListenerId := Nat

/-- `class OnFinishedEvent`: a pair of strong references to the finished
animator and its listener, recorded at completion time. -/
structure OnFinishedEvent where
  animator : AnimatorId
  listener : ListenerId
deriving DecidableEq, Repr

/-- One listener invocation on the owner thread:
`event.listener->onAnimationFinished(event.animator.get())`. -/
structure Invocation where
  listener : ListenerId
  animator : AnimatorId
deriving DecidableEq, Repr

/-- `InvokeAnimationListeners::callOnFinished(event)`: the invocation an event
produces when the posted unit of work executes. -/
def OnFinishedEvent.callOnFinished (event : OnFinishedEvent) : Invocation :=
  ⟨event.listener, event.animator⟩

/-- `class InvokeAnimationListeners : public MessageHandler`: the posted
unit of work carrying a batch of finished-animation events. -/
structure InvokeAnimationListeners where
  mOnFinishedEvents : List OnFinishedEvent
deriving DecidableEq, Repr

/-- The constructor `InvokeAnimationListeners(std::vector<OnFinishedEvent>&)`:
it swaps the caller's vector into `mOnFinishedEvents` (a move, not a copy),
leaving the caller's vector empty. Returns the handler together with the
swapped-out (now empty) source vector. -/
def InvokeAnimationListeners.construct (events : List OnFinishedEvent) :
    InvokeAnimationListeners × List OnFinishedEvent :=
  (⟨events⟩, [])

/-- `InvokeAnimationListeners::handleMessage`: `for_each` over the batch
invoking `callOnFinished` in order, then `mOnFinishedEvents.clear()`.
Returns the invocation trace and the handler's state after execution. -/
def InvokeAnimationListeners.handleMessage (h : InvokeAnimationListeners) :
    List Invocation × InvokeAnimationListeners :=
  (h.mOnFinishedEvents.map OnFinishedEvent.callOnFinished, ⟨[]⟩)

/-- `class RenderingException : public MessageHandler`: carries the error
message; executing it throws `java/lang/IllegalStateException` with that
message on the owner thread. -/
structure RenderingException where
  mMessage : String
deriving DecidableEq, Repr

/-- Observable effect, on the owner thread, of executing a posted unit of
work: a sequence of listener invocations, or a thrown IllegalStateException
carrying a message. -/
inductive OwnerEffect where
  | invoked (invocations : List Invocation)
  | threwIllegalState (message : String)
deriving DecidableEq, Repr

/-- The two concrete `MessageHandler` subclasses posted by this file. -/
inductive MessageHandler where
  | invokeAnimationListeners (h : InvokeAnimationListeners)
  | renderingException (e : RenderingException)
deriving DecidableEq, Repr

/-- Dispatch of `handleMessage` on a posted unit of work: returns the
owner-thread effect and the handler's state after this execution. -/
def MessageHandler.handleMessage : MessageHandler → OwnerEffect × MessageHandler
  | invokeAnimationListeners h =>
      (OwnerEffect.invoked h.handleMessage.1, invokeAnimationListeners h.handleMessage.2)
  | renderingException e =>
      (OwnerEffect.threwIllegalState e.mMessage, renderingException e)

/-- Modelled from the spec: one abstract step performed on the per-frame
animation context (class `AnimationContext` of the rendering pipeline, which
is not under src/). The log records the order in which the context is asked
to attach a node versus perform the generic per-frame time/animation setup. -/
inductive ContextStep where
  | attached (node : NodeId)
  | frameSetup
deriving DecidableEq, Repr

/-- Modelled from the spec: the per-frame animation context of the rendering
pipeline (`class AnimationContext`, not under src/). `mActiveAnimatingNodes`
is its active set of animating render nodes, in attachment order; `mLog`
records the order of the operations applied to it. -/
structure AnimationContext where
  mActiveAnimatingNodes : List NodeId
  mLog : List ContextStep
deriving DecidableEq, Repr

/-- Modelled from the spec: `AnimationContext::addAnimatingRenderNode(node)`
moves one node into the context's active set. -/
def AnimationContext.addAnimatingRenderNode (c : AnimationContext) (node : NodeId) :
    AnimationContext :=
  ⟨c.mActiveAnimatingNodes ++ [node], c.mLog ++ [ContextStep.attached node]⟩

/-- Modelled from the spec: `AnimationContext::startFrame()` performs the
generic per-frame time update and moves next-frame animations into the
current frame; it does not change which nodes are in the active set. -/
def AnimationContext.startFrame (c : AnimationContext) : AnimationContext :=
  ⟨c.mActiveAnimatingNodes, c.mLog ++ [ContextStep.frameSetup]⟩

/-- `class RootRenderNode`: the owner-tree anchor. `mLooper` is the owner
thread's message queue, holding the units of work posted so far in FIFO
order; `mPendingAnimatingRenderNodes` is the pending animation registry. -/
structure RootRenderNode where
  mPendingAnimatingRenderNodes : List NodeId
  mLooper : List MessageHandler
deriving DecidableEq, Repr

/-- `RootRenderNode::RootRenderNode(env)`: grabs `Looper::getForThread()` and
is fatal (`LOG_ALWAYS_FATAL_IF`) when the constructing thread has no looper;
the fatal abort is modelled as `none`. -/
def RootRenderNode.construct (threadHasLooper : Bool) : Option RootRenderNode :=
  if threadHasLooper then some ⟨[], []⟩ else none

/-- `RootRenderNode::sendMessage(handler)`: `mLooper->sendMessage(handler, 0)`,
appending the unit of work to the owner thread's queue. -/
def RootRenderNode.sendMessage (r : RootRenderNode) (handler : MessageHandler) :
    RootRenderNode :=
  ⟨r.mPendingAnimatingRenderNodes, r.mLooper ++ [handler]⟩

/-- `RootRenderNode::onError(message)`: posts a new `RenderingException`
carrying the message to the looper. -/
def RootRenderNode.onError (r : RootRenderNode) (message : String) : RootRenderNode :=
  r.sendMessage (MessageHandler.renderingException ⟨message⟩)

/-- `RootRenderNode::attachAnimatingNode(node)`: `push_back` on the pending
registry; no deduplication. -/
def RootRenderNode.attachAnimatingNode (r : RootRenderNode) (animatingNode : NodeId) :
    RootRenderNode :=
  ⟨r.mPendingAnimatingRenderNodes ++ [animatingNode], r.mLooper⟩

/-- `RootRenderNode::doAttachAnimatingNodes(context)`: for each pending node
in insertion order, `context->addAnimatingRenderNode(*node)`; then
`mPendingAnimatingRenderNodes.clear()`. -/
def RootRenderNode.doAttachAnimatingNodes (r : RootRenderNode) (context : AnimationContext) :
    RootRenderNode × AnimationContext :=
  (⟨[], r.mLooper⟩,
   r.mPendingAnimatingRenderNodes.foldl AnimationContext.addAnimatingRenderNode context)

/-- `class AnimationContextBridge : public AnimationContext`: the base-class
state (`toAnimationContext`), the strong reference to the root node, and the
current frame's finished-event batch. -/
structure AnimationContextBridge where
  toAnimationContext : AnimationContext
  mRootNode : RootRenderNode
  mOnFinishedEvents : List OnFinishedEvent
deriving DecidableEq, Repr

/-- `AnimationContextBridge::startFrame()`:
`mRootNode->doAttachAnimatingNodes(this); AnimationContext::startFrame();`. -/
def AnimationContextBridge.startFrame (b : AnimationContextBridge) :
    AnimationContextBridge :=
  let drained := b.mRootNode.doAttachAnimatingNodes b.toAnimationContext
  ⟨drained.2.startFrame, drained.1, b.mOnFinishedEvents⟩

/-- `AnimationContextBridge::callOnFinished(animator, listener)`: builds one
`OnFinishedEvent` and `push_back`s it onto the batch. The second component is
the trace of listener invocations performed directly by the call (none: the
listener is never invoked on the rendering thread). -/
def AnimationContextBridge.callOnFinished (b : AnimationContextBridge)
    (animator : AnimatorId) (listener : ListenerId) :
    AnimationContextBridge × List Invocation :=
  (⟨b.toAnimationContext, b.mRootNode, b.mOnFinishedEvents ++ [⟨animator, listener⟩]⟩, [])

/-- `AnimationContextBridge::runRemainingAnimations(info)`: first delegates to
`AnimationContext::runRemainingAnimations(info)` — modelled from the spec:
the generic advancement pass reports each animation completing during the
call through the virtual `callOnFinished`, in completion order; the parameter
`finished` is that sequence of (animator, listener) completions. Then, if the
batch is non-empty (`if (mOnFinishedEvents.size())`), a new
`InvokeAnimationListeners` is constructed (swapping the batch out) and posted
via `mRootNode->sendMessage`. -/
def AnimationContextBridge.runRemainingAnimations (b : AnimationContextBridge)
    (finished : List (AnimatorId × ListenerId)) : AnimationContextBridge :=
  let b := finished.foldl (fun b al => (b.callOnFinished al.1 al.2).1) b
  if b.mOnFinishedEvents.length ≠ 0 then
    let msg := InvokeAnimationListeners.construct b.mOnFinishedEvents
    ⟨b.toAnimationContext,
     b.mRootNode.sendMessage (MessageHandler.invokeAnimationListeners msg.1),
     msg.2⟩
  else b

/-- `nRegisterAnimatingRenderNode` applied `m` times with the same node:
`rootRenderNode->attachAnimatingNode(animatingNode)` repeated. -/
def RootRenderNode.registerTimes (r : RootRenderNode) (node : NodeId) : Nat → RootRenderNode
  | 0 => r
  | m + 1 => (r.registerTimes node m).attachAnimatingNode node

/-! ## Helper lemmas -/

theorem foldl_addAnimatingRenderNode_active (ns : List NodeId) (c : AnimationContext) :
    (ns.foldl AnimationContext.addAnimatingRenderNode c).mActiveAnimatingNodes
      = c.mActiveAnimatingNodes ++ ns := by
  induction ns generalizing c with
  | nil => simp
  | cons n ns ih => simp [AnimationContext.addAnimatingRenderNode, ih]

theorem foldl_addAnimatingRenderNode_log (ns : List NodeId) (c : AnimationContext) :
    (ns.foldl AnimationContext.addAnimatingRenderNode c).mLog
      = c.mLog ++ ns.map ContextStep.attached := by
  induction ns generalizing c with
  | nil => simp
  | cons n ns ih => simp [AnimationContext.addAnimatingRenderNode, ih]

theorem foldl_callOnFinished_eq (fs : List (AnimatorId × ListenerId))
    (b : AnimationContextBridge) :
    fs.foldl (fun b al => (b.callOnFinished al.1 al.2).1) b
      = ⟨b.toAnimationContext, b.mRootNode,
         b.mOnFinishedEvents ++ fs.map fun al => ⟨al.1, al.2⟩⟩ := by
  induction fs generalizing b with
  | nil => simp
  | cons f fs ih =>
      rw [List.foldl_cons, ih]
      simp [AnimationContextBridge.callOnFinished]

theorem registerTimes_pending (r : RootRenderNode) (node : NodeId) (m : Nat) :
    (r.registerTimes node m).mPendingAnimatingRenderNodes
      = r.mPendingAnimatingRenderNodes ++ List.replicate m node := by
  induction m with
  | zero => simp [RootRenderNode.registerTimes]
  | succ m ih =>
      simp [RootRenderNode.registerTimes, RootRenderNode.attachAnimatingNode, ih,
        List.replicate_succ']

/-! ## Claim theorems -/

/-- C1: for every sequence of N `registerAnimatingNode` calls made before
`startFrame()` (a fresh per-frame context), exactly the N registered nodes
are in the context's active set after `startFrame()` returns, in insertion
order, the pending registry is drained, and the log shows every attachment
happening before the generic per-frame setup step. -/
theorem startFrame_attaches_all_pending_in_order
    (ns : List NodeId) (q : List MessageHandler) (es : List OnFinishedEvent) :
    (AnimationContextBridge.startFrame
        ⟨⟨[], []⟩, ⟨ns, q⟩, es⟩).toAnimationContext.mActiveAnimatingNodes = ns ∧
    (AnimationContextBridge.startFrame
        ⟨⟨[], []⟩, ⟨ns, q⟩, es⟩).toAnimationContext.mActiveAnimatingNodes.length
      = ns.length ∧
    (AnimationContextBridge.startFrame
        ⟨⟨[], []⟩, ⟨ns, q⟩, es⟩).mRootNode.mPendingAnimatingRenderNodes = [] ∧
    (AnimationContextBridge.startFrame
        ⟨⟨[], []⟩, ⟨ns, q⟩, es⟩).toAnimationContext.mLog
      = ns.map ContextStep.attached ++ [ContextStep.frameSetup] := by
  simp [AnimationContextBridge.startFrame, RootRenderNode.doAttachAnimatingNodes,
    AnimationContext.startFrame, foldl_addAnimatingRenderNode_active,
    foldl_addAnimatingRenderNode_log]

/-- C6: draining the pending registry twice in a row with no intervening
append is the same as draining once: the second drain (of the now-empty
registry) changes neither the animation context nor the root node — a
no-op, not an error. -/
theorem doAttachAnimatingNodes_twice_noop (r : RootRenderNode) (c : AnimationContext) :
    (r.doAttachAnimatingNodes c).1.doAttachAnimatingNodes (r.doAttachAnimatingNodes c).2
      = ((r.doAttachAnimatingNodes c).1, (r.doAttachAnimatingNodes c).2) := by
  simp [RootRenderNode.doAttachAnimatingNodes]

/-- C7: registering the same node M times before a drain is not deduplicated:
the registry holds exactly M entries for it, and the drain attaches the node
to the animation context M times. -/
theorem register_same_node_m_times_no_dedup
    (r : RootRenderNode) (c : AnimationContext) (node : NodeId) (m : Nat)
    (hpending : r.mPendingAnimatingRenderNodes = []) :
    (r.registerTimes node m).mPendingAnimatingRenderNodes = List.replicate m node ∧
    ((r.registerTimes node m).doAttachAnimatingNodes c).2.mActiveAnimatingNodes
      = c.mActiveAnimatingNodes ++ List.replicate m node ∧
    ((r.registerTimes node m).doAttachAnimatingNodes c).2.mActiveAnimatingNodes.count node
      = c.mActiveAnimatingNodes.count node + m := by
  refine ⟨?_, ?_, ?_⟩ <;>
    simp [RootRenderNode.doAttachAnimatingNodes, registerTimes_pending, hpending,
      foldl_addAnimatingRenderNode_active]

/-- C7 witness: registering node 5 three times into an empty registry yields
three entries, and draining attaches node 5 three times. -/
theorem register_same_node_m_times_no_dedup_witness :
    ((⟨[], []⟩ : RootRenderNode).registerTimes 5 3).mPendingAnimatingRenderNodes
      = List.replicate 3 5 ∧
    (((⟨[], []⟩ : RootRenderNode).registerTimes 5 3).doAttachAnimatingNodes
        ⟨[7], []⟩).2.mActiveAnimatingNodes
      = [7] ++ List.replicate 3 5 ∧
    (((⟨[], []⟩ : RootRenderNode).registerTimes 5 3).doAttachAnimatingNodes
        ⟨[7], []⟩).2.mActiveAnimatingNodes.count 5
      = List.count 5 [7] + 3 :=
  register_same_node_m_times_no_dedup ⟨[], []⟩ ⟨[7], []⟩ 5 3 rfl

/-- C8: `callOnFinished(animator, listener)` appends exactly one
finished-animation event to the current batch, preserving the events already
accumulated, posts nothing, and performs no direct listener invocation. -/
theorem callOnFinished_appends_one_event (b : AnimationContextBridge)
    (animator : AnimatorId) (listener : ListenerId) :
    (b.callOnFinished animator listener).1.mOnFinishedEvents
      = b.mOnFinishedEvents ++ [⟨animator, listener⟩] ∧
    (b.callOnFinished animator listener).2 = [] ∧
    (b.callOnFinished animator listener).1.mRootNode = b.mRootNode :=
  ⟨rfl, rfl, rfl⟩

/-- C9: constructing the owner-tree anchor on a thread without a looper is a
fatal precondition violation (modelled `none`); with a looper present,
construction succeeds and the fatal branch is not taken. -/
theorem construct_requires_looper :
    RootRenderNode.construct false = none ∧
    RootRenderNode.construct true = some ⟨[], []⟩ :=
  ⟨rfl, rfl⟩

/-- C10: executing the same posted finished-events unit a second time invokes
no listeners: the first execution clears the unit's event list, so the second
execution produces an empty invocation trace. -/
theorem handleMessage_second_execution_noop (es : List OnFinishedEvent) :
    (MessageHandler.invokeAnimationListeners
        ⟨es⟩).handleMessage.2.handleMessage.1 = OwnerEffect.invoked [] ∧
    (MessageHandler.invokeAnimationListeners ⟨es⟩).handleMessage.2
      = MessageHandler.invokeAnimationListeners ⟨[]⟩ :=
  ⟨rfl, rfl⟩

/-- C2: if K animations finish during a frame (K ≥ 1, batch empty at frame
start), `runRemainingAnimations` posts exactly one finished-events unit,
containing exactly the K events in completion order, and executing that unit
invokes each event's listener exactly once, in that order, with its paired
animator. -/
theorem runRemainingAnimations_posts_one_batch
    (b : AnimationContextBridge) (fs : List (AnimatorId × ListenerId))
    (hbatch : b.mOnFinishedEvents = []) (hK : fs ≠ []) :
    (b.runRemainingAnimations fs).mRootNode.mLooper
      = b.mRootNode.mLooper ++
        [MessageHandler.invokeAnimationListeners ⟨fs.map fun al => ⟨al.1, al.2⟩⟩] ∧
    (MessageHandler.invokeAnimationListeners
        ⟨fs.map fun al => ⟨al.1, al.2⟩⟩).handleMessage.1
      = OwnerEffect.invoked (fs.map fun al => ⟨al.2, al.1⟩) := by
  constructor
  · unfold AnimationContextBridge.runRemainingAnimations
    rw [foldl_callOnFinished_eq]
    simp [hbatch, hK, InvokeAnimationListeners.construct, RootRenderNode.sendMessage]
  · simp [MessageHandler.handleMessage, InvokeAnimationListeners.handleMessage,
      OnFinishedEvent.callOnFinished]

/-- C2 witness: one animation (animator 1, listener 2) finishing posts one
unit whose execution invokes listener 2 with animator 1. -/
theorem runRemainingAnimations_posts_one_batch_witness :
    ((⟨⟨[], []⟩, ⟨[], []⟩, []⟩ :
        AnimationContextBridge).runRemainingAnimations [(1, 2)]).mRootNode.mLooper
      = ([] : List MessageHandler) ++
        [MessageHandler.invokeAnimationListeners ⟨[(1, 2)].map fun al => ⟨al.1, al.2⟩⟩] ∧
    (MessageHandler.invokeAnimationListeners
        ⟨[(1, 2)].map fun al => ⟨al.1, al.2⟩⟩).handleMessage.1
      = OwnerEffect.invoked ([(1, 2)].map fun al => ⟨al.2, al.1⟩) :=
  runRemainingAnimations_posts_one_batch ⟨⟨[], []⟩, ⟨[], []⟩, []⟩ [(1, 2)] rfl (by decide)

/-- C3: if zero animations finish during a frame (the batch is empty when
advancement returns), `runRemainingAnimations` posts no unit of work and
leaves the bridge unchanged. -/
theorem runRemainingAnimations_no_finish_posts_nothing
    (b : AnimationContextBridge) (hbatch : b.mOnFinishedEvents = []) :
    (b.runRemainingAnimations []).mRootNode.mLooper = b.mRootNode.mLooper ∧
    b.runRemainingAnimations [] = b := by
  have h : b.runRemainingAnimations [] = b := by
    unfold AnimationContextBridge.runRemainingAnimations
    simp [hbatch]
  exact ⟨by rw [h], h⟩

/-- C3 witness: a frame with no finished animations posts nothing. -/
theorem runRemainingAnimations_no_finish_posts_nothing_witness :
    ((⟨⟨[], []⟩, ⟨[], []⟩, []⟩ :
        AnimationContextBridge).runRemainingAnimations []).mRootNode.mLooper
      = (⟨⟨[], []⟩, ⟨[], []⟩, []⟩ : AnimationContextBridge).mRootNode.mLooper ∧
    (⟨⟨[], []⟩, ⟨[], []⟩, []⟩ : AnimationContextBridge).runRemainingAnimations []
      = ⟨⟨[], []⟩, ⟨[], []⟩, []⟩ :=
  runRemainingAnimations_no_finish_posts_nothing ⟨⟨[], []⟩, ⟨[], []⟩, []⟩ rfl

/-- C4: every `onError(message)` call posts exactly one error unit of work,
and executing that unit throws an IllegalStateException on the owner thread
carrying the original message text unmodified. -/
theorem onError_posts_one_exception (r : RootRenderNode) (message : String) :
    (r.onError message).mLooper
      = r.mLooper ++ [MessageHandler.renderingException ⟨message⟩] ∧
    (MessageHandler.renderingException ⟨message⟩).handleMessage.1
      = OwnerEffect.threwIllegalState message :=
  ⟨rfl, rfl⟩

/-- C5: when the finished-event batch is non-empty at the end of
`runRemainingAnimations`, the events are moved (swapped) into the posted unit
and the bridge's batch container is empty immediately after the post. -/
theorem runRemainingAnimations_moves_batch_out
    (b : AnimationContextBridge) (fs : List (AnimatorId × ListenerId))
    (hne : b.mOnFinishedEvents ++
        (fs.map fun al => (⟨al.1, al.2⟩ : OnFinishedEvent)) ≠ []) :
    (b.runRemainingAnimations fs).mOnFinishedEvents = [] ∧
    (b.runRemainingAnimations fs).mRootNode.mLooper
      = b.mRootNode.mLooper ++
        [MessageHandler.invokeAnimationListeners
          ⟨b.mOnFinishedEvents ++ fs.map fun al => ⟨al.1, al.2⟩⟩] := by
  unfold AnimationContextBridge.runRemainingAnimations
  rw [foldl_callOnFinished_eq, if_pos]
  · exact ⟨rfl, rfl⟩
  · simpa using hne

/-- C5 witness: a batch holding one event is moved into the posted unit and
the bridge's container is empty after the post. -/
theorem runRemainingAnimations_moves_batch_out_witness :
    ((⟨⟨[], []⟩, ⟨[], []⟩, [⟨1, 2⟩]⟩ :
        AnimationContextBridge).runRemainingAnimations []).mOnFinishedEvents = [] ∧
    ((⟨⟨[], []⟩, ⟨[], []⟩, [⟨1, 2⟩]⟩ :
        AnimationContextBridge).runRemainingAnimations []).mRootNode.mLooper
      = ([] : List MessageHandler) ++
        [MessageHandler.invokeAnimationListeners
          ⟨[⟨1, 2⟩] ++ ([] : List (AnimatorId × ListenerId)).map fun al => ⟨al.1, al.2⟩⟩] :=
  runRemainingAnimations_moves_batch_out ⟨⟨[], []⟩, ⟨[], []⟩, [⟨1, 2⟩]⟩ [] (by decide)

end ThreadedRenderer
